import Mathlib

/-!
Verification development for the book-card-creator plugin.

The definitions below are a shallow embedding of the extraction pipeline of
src/src/main.ts (second iteration of the file, lines 443-1389): the pure
extraction phase of fetchBookInfo and fetchBlogInfo, the cleanHtml helper,
the proxy-chain loop, the summarization step, the template rendering and the
file-name sanitization of createNoteFromTemplate.  JavaScript regular
expression matching is embedded through a tiny backtracking engine over a
pattern AST (RItem / RPat) whose values transcribe the concrete regex
literals of the source one for one.
-/

/-- Character class of the JavaScript regex token for whitespace, restricted
to the code points that occur in this code base (space, tab, newline,
carriage return, vertical tab, form feed, no-break space). -/
def isWsChar (c : Char) : Bool :=
  c == ' ' || c == '\t' || c == '\n' || c == '\r' || c == '\x0b' || c == '\x0c' || c == ' '

/-- Drop leading whitespace, as the front half of the JS trim method. -/
def trimStartWs (l : List Char) : List Char := l.dropWhile isWsChar

/-- Drop trailing whitespace, as the back half of the JS trim method. -/
def dropEndWs : List Char → List Char
  | [] => []
  | c :: cs =>
    match dropEndWs cs with
    | [] => if isWsChar c then [] else [c]
    | r => c :: r

/-- The JS trim method: remove whitespace from both ends of a string. -/
def trimJS (s : String) : String := (dropEndWs (trimStartWs s.toList)).asString

/-- Case-insensitive prefix test on character lists. -/
def ciPre : List Char → List Char → Bool
  | [], _ => true
  | _ :: _, [] => false
  | a :: as, b :: bs => (a.toLower == b.toLower) && ciPre as bs

/-- One atom of the regex fragment used by the source: a literal, a
case-insensitive literal, or a character class with a star or plus
quantifier (min repetitions 0 or 1) that is greedy or lazy. -/
inductive RItem where
  | lit   : List Char → RItem
  | litCI : List Char → RItem
  | cls   : (Char → Bool) → Nat → Bool → RItem

/-- All ways an atom can consume a prefix of the input, as pairs of consumed
characters and rest, listed in the preference order of a backtracking JS
regex engine (greedy classes longest first, lazy classes shortest first). -/
def itemChoices : RItem → List Char → List (List Char × List Char)
  | .lit p, s => if p.isPrefixOf s then [(s.take p.length, s.drop p.length)] else []
  | .litCI p, s => if ciPre p s then [(s.take p.length, s.drop p.length)] else []
  | .cls p mn greedy, s =>
    let run := (s.takeWhile p).length
    let ks := (List.range (run + 1)).filter (fun k => mn ≤ k)
    let ks := if greedy then ks.reverse else ks
    ks.map (fun k => (s.take k, s.drop k))

/-- All ways a sequence of atoms can consume a prefix of the input, in
backtracking preference order. -/
def seqChoices : List RItem → List Char → List (List Char × List Char)
  | [], s => [([], s)]
  | it :: rest, s =>
    (itemChoices it s).flatMap fun pr =>
      (seqChoices rest pr.2).map fun qr => (pr.1 ++ qr.1, qr.2)

/-- A regex with exactly one capturing group, the shape of every pattern in
the source: items before the group, the captured atom, items after it. -/
structure RPat where
  pre : List RItem
  cap : RItem
  post : List RItem

/-- Try to match a pattern at the start of the input; on success return the
full matched text, the captured group and the rest of the input after the
match, following the preference order of the backtracking engine. -/
def matchAtPos (pat : RPat) (s : List Char) : Option (List Char × List Char × List Char) :=
  (seqChoices pat.pre s).findSome? fun pr =>
    (itemChoices pat.cap pr.2).findSome? fun cp =>
      ((seqChoices pat.post cp.2).head?).map fun po =>
        (pr.1 ++ cp.1 ++ po.1, cp.1, po.2)

/-- Leftmost match of a pattern in the input, as the JS match method without
the global flag: scan start positions left to right. -/
def rmatch (pat : RPat) : List Char → Option (List Char × List Char × List Char)
  | [] => matchAtPos pat []
  | c :: rest =>
    match matchAtPos pat (c :: rest) with
    | some r => some r
    | none => rmatch pat rest

/-- The capturing group of the leftmost match, if any: the value of
m and m[1] of the JS match method. -/
def matchGroup? (pat : RPat) (s : String) : Option String :=
  match rmatch pat s.toList with
  | some r => some r.2.1.asString
  | none => none

/-- Fueled scan of all non-overlapping matches left to right, as the JS
match method with the global flag; the fuel only bounds the recursion and
is instantiated with the input length, which every nonempty match exceeds. -/
def rmatchAllGo (pat : RPat) : Nat → List Char → List (List Char)
  | 0, _ => []
  | fuel + 1, s =>
    match rmatch pat s with
    | none => []
    | some (full, _, rest) =>
      if full.isEmpty then [full] else full :: rmatchAllGo pat fuel rest

/-- All full matches of a pattern in a string, in order, as the JS global
match method returns them. -/
def globalMatches (pat : RPat) (s : String) : List String :=
  (rmatchAllGo pat (s.toList.length + 1) s.toList).map List.asString

/-- Character class of the regex bracket for anything except a greater-than sign. -/
def notGt (c : Char) : Bool := c != '>'

/-- Character class of the regex bracket for anything except a less-than sign. -/
def notLt (c : Char) : Bool := c != '<'

/-- Character class of the regex bracket for anything except a double quote. -/
def notQuote (c : Char) : Bool := c != '"'

/-- Character class of the regex bracket that accepts every character. -/
def anyCh (_ : Char) : Bool := true

/-- Shorthand for a case-sensitive literal atom. -/
def litS (s : String) : RItem := .lit s.toList

/-- Shorthand for a case-insensitive literal atom. -/
def litCIS (s : String) : RItem := .litCI s.toList

/-- Product title regex of fetchBookInfo (main.ts line 797). -/
def titlePat : RPat :=
  ⟨[litS "<span id=\"productTitle\"", .cls notGt 0 true, litS ">"],
   .cls notLt 1 true, [litS "</span>"]⟩

/-- First author regex of fetchBookInfo (main.ts line 798). -/
def authorPatA : RPat :=
  ⟨[litS "<a class=\"", .cls notQuote 0 true, litS "\" href=\"", .cls notQuote 0 true,
    litS "/e/", .cls notQuote 0 true, litS "\">"],
   .cls notLt 1 true, [litS "</a>"]⟩

/-- Second author regex of fetchBookInfo (main.ts line 799). -/
def authorPatB : RPat :=
  ⟨[litS "id=\"bylineInfo\"", .cls notGt 0 true, litS ">", .cls anyCh 0 false,
    litS "<span", .cls notGt 0 true, litS ">"],
   .cls notLt 1 true, [litS "</span>"]⟩

/-- First description regex of fetchBookInfo (main.ts line 802). -/
def sumPatA : RPat :=
  ⟨[litS "<div id=\"bookDescription_feature_div\"", .cls notGt 0 true, litS ">"],
   .cls anyCh 0 false, [litS "</div>"]⟩

/-- Second description regex of fetchBookInfo (main.ts line 803). -/
def sumPatB : RPat :=
  ⟨[litS "<div id=\"productDescription\"", .cls notGt 0 true, litS ">"],
   .cls anyCh 0 false, [litS "</div>"]⟩

/-- Third description regex of fetchBookInfo (main.ts line 804). -/
def sumPatC : RPat :=
  ⟨[litS "<div class=\"a-expander-content", .cls notQuote 0 true, litS "\" id=\"",
    .cls notQuote 0 true, litS "Description", .cls notQuote 0 true, litS "\"",
    .cls notGt 0 true, litS ">"],
   .cls anyCh 0 false, [litS "</div>"]⟩

/-- Fourth description regex of fetchBookInfo (main.ts line 805). -/
def sumPatD : RPat :=
  ⟨[litS "<noscript><div>"], .cls anyCh 0 false, [litS "</div></noscript>"]⟩

/-- Breadcrumb block regex of fetchBookInfo (main.ts line 811). -/
def breadcrumbPat : RPat :=
  ⟨[litS "id=\"wayfinding-breadcrumbs_feature_div\"", .cls notGt 0 true, litS ">"],
   .cls anyCh 0 false, [litS "</div>"]⟩

/-- Anchor regex applied inside the breadcrumb block (main.ts lines 815 and 821). -/
def anchorPat : RPat :=
  ⟨[litS "<a", .cls notGt 0 true, litS ">"], .cls notLt 1 true, [litS "</a>"]⟩

/-- Tertiary category regex of fetchBookInfo (main.ts line 830). -/
def tertiaryPat : RPat :=
  ⟨[litS "<a class=\"a-link-normal a-color-tertiary\"", .cls notGt 0 true, litS ">"],
   .cls notLt 1 true, [litS "</a>"]⟩

/-- Page title regex of fetchBlogInfo (main.ts line 640). -/
def blogTitlePat : RPat :=
  ⟨[litS "<title", .cls notGt 0 true, litS ">"], .cls notLt 1 true, [litS "</title>"]⟩

/-- Heading regex of fetchBlogInfo (main.ts line 641). -/
def blogH1Pat : RPat :=
  ⟨[litS "<h1", .cls notGt 0 true, litS ">"], .cls notLt 1 true, [litS "</h1>"]⟩

/-- Article container regex of extractMainContent (main.ts line 674). -/
def articlePat : RPat :=
  ⟨[litS "<article", .cls notGt 0 true, litS ">"], .cls anyCh 0 false, [litS "</article>"]⟩

/-- Main container regex of extractMainContent (main.ts line 675). -/
def mainPat : RPat :=
  ⟨[litS "<main", .cls notGt 0 true, litS ">"], .cls anyCh 0 false, [litS "</main>"]⟩

/-- Case-insensitive class-name container regex of extractMainContent
(main.ts lines 676-678), parameterized by the class-name fragment. -/
def divClassPat (word : String) : RPat :=
  ⟨[litCIS "<div", .cls notGt 0 false, litCIS "class=\"", .cls notQuote 0 false,
    litCIS word, .cls notQuote 0 false, litCIS "\"", .cls notGt 0 true, litCIS ">"],
   .cls anyCh 0 false, [litCIS "</div>"]⟩

/-- Body fallback regex of extractMainContent (main.ts line 688). -/
def bodyPat : RPat :=
  ⟨[litS "<body", .cls notGt 0 true, litS ">"], .cls anyCh 0 false, [litS "</body>"]⟩

/-- Fueled scanner for the global case-insensitive replacement of break tags
by a newline in cleanHtml (main.ts line 854): on a match of the br literal
the scan jumps past the first closing angle bracket; the fuel is
instantiated with the input length plus one, which the scan never exhausts
since every step consumes at least one character. -/
def replaceBrGo : Nat → List Char → List Char
  | 0, l => l
  | _ + 1, [] => []
  | fuel + 1, c :: cs =>
    if ciPre "<br".toList (c :: cs) then
      match ((c :: cs).drop 3).dropWhile (fun d => d != '>') with
      | [] => c :: replaceBrGo fuel cs
      | _ :: rest => '\n' :: replaceBrGo fuel rest
    else c :: replaceBrGo fuel cs

/-- Fueled scanner for the global case-insensitive replacement of paragraph
close tags by a double newline in cleanHtml (main.ts line 855). -/
def replacePGo : Nat → List Char → List Char
  | 0, l => l
  | _ + 1, [] => []
  | fuel + 1, c :: cs =>
    if ciPre "</p>".toList (c :: cs) then
      '\n' :: '\n' :: replacePGo fuel (cs.drop 3)
    else c :: replacePGo fuel cs

/-- Fueled scanner for the global replacement of every remaining markup tag
by a single space in cleanHtml (main.ts line 856): a less-than sign with a
later greater-than sign forms a tag; with no later greater-than sign the
regex has no match there and the character is kept. -/
def stripTagsGo : Nat → List Char → List Char
  | 0, l => l
  | _ + 1, [] => []
  | fuel + 1, c :: cs =>
    if c == '<' then
      match cs.dropWhile (fun d => d != '>') with
      | [] => c :: stripTagsGo fuel cs
      | _ :: rest => ' ' :: stripTagsGo fuel rest
    else c :: stripTagsGo fuel cs

/-- Fueled scanner for the global replacement of every run of two or more
whitespace characters by a single space in cleanHtml (main.ts line 857);
a lone whitespace character is left unchanged. -/
def collapseGo : Nat → List Char → List Char
  | 0, l => l
  | _ + 1, [] => []
  | fuel + 1, c :: cs =>
    if isWsChar c then
      if (cs.takeWhile isWsChar).isEmpty then c :: collapseGo fuel cs
      else ' ' :: collapseGo fuel (cs.dropWhile isWsChar)
    else c :: collapseGo fuel cs

/-- The cleanHtml helper of the plugin (main.ts lines 851-859): break tags
to newline, paragraph close tags to double newline, remaining tags to a
space, whitespace runs collapsed, ends trimmed. -/
def cleanHtml (html : String) : String :=
  let s1 := replaceBrGo (html.toList.length + 1) html.toList
  let s2 := replacePGo (s1.length + 1) s1
  let s3 := stripTagsGo (s2.length + 1) s2
  let s4 := collapseGo (s3.length + 1) s3
  (dropEndWs (trimStartWs s4)).asString

/-- The extractMainContent helper of the plugin (main.ts lines 671-690):
the first of five containers whose group is present and non-empty, else the
body content when a body match exists, else the whole input. -/
def extractMainContent (html : String) : String :=
  let cands := [articlePat, mainPat, divClassPat "content", divClassPat "entry", divClassPat "post"]
  match cands.findSome? (fun p =>
      match matchGroup? p html with
      | some g => if g == "" then none else some g
      | none => none) with
  | some g => g
  | none =>
    match matchGroup? bodyPat html with
    | some b => b
    | none => html

/-- Record returned by fetchBookInfo (the BookInfo interface, main.ts lines 870-876). -/
structure BookInfo where
  title : String
  author : String
  genre : String
  summary : String
  amazonUrl : String
deriving DecidableEq

/-- Record returned by fetchBlogInfo (the BlogInfo interface, main.ts lines 878-882). -/
structure BlogInfo where
  title : String
  summary : String
  blogUrl : String
deriving DecidableEq

/-- The author match of fetchBookInfo (main.ts lines 798-799): first regex,
else second regex. -/
def bookAuthorMatch (html : String) : Option String :=
  (matchGroup? authorPatA html).orElse fun _ => matchGroup? authorPatB html

/-- The description match of fetchBookInfo (main.ts lines 802-805): four
alternative regexes tried in order. -/
def bookSummaryMatch (html : String) : Option String :=
  ((matchGroup? sumPatA html).orElse fun _ =>
    (matchGroup? sumPatB html).orElse fun _ =>
      (matchGroup? sumPatC html).orElse fun _ =>
        matchGroup? sumPatD html)

/-- The genre computation of fetchBookInfo (main.ts lines 807-834): start
from the Fiction default, take the anchor at index max(0, n - 2) of the
breadcrumb block when present, then re-search the tertiary category link
when the result is still Fiction or is Kindle Store. -/
def bookGenre (html : String) : String :=
  let g1 :=
    match matchGroup? breadcrumbPat html with
    | some bc =>
      let links := globalMatches anchorPat bc
      if links.length > 0 then
        match links.get? (links.length - 2) with
        | some lnk =>
          match matchGroup? anchorPat lnk with
          | some t => trimJS t
          | none => "Fiction"
        | none => "Fiction"
      else "Fiction"
    | none => "Fiction"
  if g1 == "Fiction" || g1 == "Kindle Store" then
    match matchGroup? tertiaryPat html with
    | some t => if trimJS t != "Kindle Store" then trimJS t else g1
    | none => g1
  else g1

/-- The extraction phase of fetchBookInfo (main.ts lines 796-843), applied
to the html text obtained from the proxy chain and to the requested url. -/
def extractBookInfo (html amazonUrl : String) : BookInfo :=
  { title :=
      match matchGroup? titlePat html with
      | some t => trimJS t
      | none => "Unknown Title"
    author :=
      match bookAuthorMatch html with
      | some a => trimJS a
      | none => "Unknown Author"
    genre := bookGenre html
    summary :=
      match bookSummaryMatch html with
      | some s => trimJS (cleanHtml s)
      | none => "No summary available."
    amazonUrl := amazonUrl }

/-- The fixed instruction text that generateSummaryWithAnthropic puts before
the truncated content (main.ts lines 703-708). -/
def promptPrefix : String :=
  "\nHere\x27s the content of a technical blog post. Please summarize it in a concise way, highlighting the main points, key technical concepts, and any important conclusions:\n\n"

/-- The generateSummaryWithAnthropic method (main.ts lines 693-738), with
the network and response parsing abstracted as a function from the prompt to
the produced text or an error.  Returns the outcome together with the number
of requests issued: an empty key throws before any request; otherwise the
content is truncated at 10000 characters with an ellipsis marker, one
request is made, an empty returned text falls back to the no-summary string
and every failure is mapped to the fixed failure message of the catch block. -/
def generateSummaryWithAnthropic (apiKey content : String)
    (api : String → Except String String) : Except String String × Nat :=
  if apiKey == "" then (.error "Anthropic API key is not set", 0)
  else
    let truncated :=
      if content.length > 10000 then (content.toList.take 10000).asString ++ "..." else content
    let prompt := promptPrefix ++ truncated ++ "\n\nSummary:"
    (match api prompt with
     | .ok s => .ok (if s == "" then "No summary available." else s)
     | .error _ => .error "Failed to generate summary with Anthropic API", 1)

/-- The summary step of fetchBlogInfo (main.ts lines 647-656): the summarizer
runs only when both the cleaned content and the api key are non-empty; its
error is turned into a degraded message; otherwise the fallback string is
used and no request is issued.  The second component counts requests. -/
def blogSummaryStep (apiKey cleaned : String)
    (api : String → Except String String) : String × Nat :=
  if cleaned != "" && apiKey != "" then
    match generateSummaryWithAnthropic apiKey cleaned api with
    | (.ok s, n) => (s, n)
    | (.error m, n) => ("Failed to generate summary: " ++ m, n)
  else ("No summary available.", 0)

/-- The extraction phase of fetchBlogInfo (main.ts lines 639-663), applied to
the html text obtained from the proxy chain: title from the page title or
first heading regex, summary from the summary step over the cleaned main
content. -/
def extractBlogInfo (html blogUrl apiKey : String)
    (api : String → Except String String) : BlogInfo :=
  let cleaned := cleanHtml (extractMainContent html)
  { title :=
      match (matchGroup? blogTitlePat html).orElse (fun _ => matchGroup? blogH1Pat html) with
      | some t => trimJS t
      | none => "Unknown Title"
    summary := (blogSummaryStep apiKey cleaned api).1
    blogUrl := blogUrl }

/-- Outcome of one proxy entry in the fetch loop of fetchBookInfo and
fetchBlogInfo (main.ts lines 759-790): the fetch threw, the response was not
ok, the response was json carrying an optional contents field next to its
raw body text, or the response was plain text. -/
inductive ProxyOutcome where
  | netError : String → ProxyOutcome
  | notOk : Nat → ProxyOutcome
  | jsonVal : Option String → String → ProxyOutcome
  | text : String → ProxyOutcome
deriving DecidableEq

/-- The html content a proxy outcome assigns inside the loop body: the
contents field of a json response when present and non-empty (assignment is
guarded by its truthiness), the body of a text response, and nothing in
every other case — in particular the raw body of a json response without a
contents field is never assigned. -/
def contentOf : ProxyOutcome → String
  | .netError _ => ""
  | .notOk _ => ""
  | .jsonVal (some c) _ => c
  | .jsonVal none _ => ""
  | .text b => b

/-- The proxy error the loop records for an outcome, when it records one
(main.ts lines 763-766 and 786-789): a status message for a not-ok response
and a proxy error message for a thrown fetch; json and text handling record
nothing. -/
def errUpdate : ProxyOutcome → Option String
  | .netError m => some ("Proxy error: " ++ m)
  | .notOk s => some ("Failed to fetch data: " ++ toString s)
  | .jsonVal _ _ => none
  | .text _ => none

/-- The proxy chain loop of fetchBookInfo and fetchBlogInfo (main.ts lines
755-794): entries are tried in list order, each try issues one request, the
first outcome with non-empty content stops the loop and is returned, and
exhaustion produces the failure message built from the prefix of the
enclosing fetch and the last recorded proxy error.  The second component
counts the requests issued. -/
def proxyLoop (pfx : String) (err : String) : List ProxyOutcome → Except String String × Nat
  | [] => (.error (pfx ++ err), 0)
  | o :: rest =>
    if contentOf o == "" then
      let r := proxyLoop pfx ((errUpdate o).getD err) rest
      (r.1, r.2 + 1)
    else (.ok (contentOf o), 1)

/-- The fixed proxy url list of fetchBookInfo (main.ts lines 749-753),
with the uri component encoding abstracted as a parameter. -/
def proxyUrls (enc : String → String) (amazonUrl : String) : List String :=
  [ "https://api.allorigins.win/get?url=" ++ enc amazonUrl,
    "https://corsproxy.io/?" ++ enc amazonUrl,
    "https://cors-anywhere.herokuapp.com/" ++ amazonUrl ]

/-- Substring test on character lists, as the JS includes method. -/
def containsSubL (needle : List Char) : List Char → Bool
  | [] => needle.isEmpty
  | c :: t => needle.isPrefixOf (c :: t) || containsSubL needle t

/-- The url validation of fetchBlogInfo (main.ts lines 586-588): throw the
invalid-url error when the input does not contain http as a substring. -/
def validateBlogUrl (u : String) : Except String Unit :=
  if containsSubL "http".toList u.toList then .ok () else .error "Invalid Blog URL"

/-- The url validation of fetchBookInfo (main.ts lines 742-744): throw the
invalid-url error when the input does not contain amazon as a substring. -/
def validateAmazonUrl (u : String) : Except String Unit :=
  if containsSubL "amazon".toList u.toList then .ok () else .error "Invalid Amazon URL"

/-- Fueled scanner for a global replacement of a fixed non-empty pattern, as
the JS replace method with a global regex on a literal token: leftmost
non-overlapping occurrences are replaced and scanning resumes after each
replacement; the fuel is instantiated with the input length plus one, which
the scan never exhausts since every step consumes at least one character. -/
def replaceAllGo (pat rep : List Char) : Nat → List Char → List Char
  | 0, l => l
  | _ + 1, [] => []
  | fuel + 1, c :: cs =>
    if !pat.isEmpty && pat.isPrefixOf (c :: cs) then
      rep ++ replaceAllGo pat rep fuel ((c :: cs).drop pat.length)
    else c :: replaceAllGo pat rep fuel cs

/-- Global replacement of a literal token in a string. -/
def replaceAllS (s pat rep : String) : String :=
  (replaceAllGo pat.toList rep.toList (s.toList.length + 1) s.toList).asString

/-- Character removal of a global regex character class replaced by the
empty string, as used for link titles and file names. -/
def removeClass (p : Char → Bool) : List Char → List Char
  | [] => []
  | c :: cs => if p c then removeClass p cs else c :: removeClass p cs

/-- The characters the createMarkdownLink helper strips from the link text
(main.ts line 864): number sign, square brackets and pipe. -/
def isLinkStripChar (c : Char) : Bool :=
  c == '#' || c == '[' || c == ']' || c == '|'

/-- The createMarkdownLink helper (main.ts lines 862-867): strip the
structural characters from the title, trim it, and wrap title and url into
a markdown link. -/
def createMarkdownLink (title url : String) : String :=
  "[" ++ trimJS (removeClass isLinkStripChar title.toList).asString ++ "](" ++ url ++ ")"

/-- The book branch of the template substitution in createNoteFromTemplate
(main.ts lines 547-555): each book placeholder token is globally replaced by
the corresponding field, and the amazon link placeholder by the markdown
link built from title and url. -/
def renderBookTemplate (tpl : String) (b : BookInfo) : String :=
  let t1 := replaceAllS tpl "\x7b\x7bbook-creator:title\x7d\x7d" b.title
  let t2 := replaceAllS t1 "\x7b\x7bbook-creator:author\x7d\x7d" b.author
  let t3 := replaceAllS t2 "\x7b\x7bbook-creator:genre\x7d\x7d" b.genre
  let t4 := replaceAllS t3 "\x7b\x7bbook-creator:summary\x7d\x7d" b.summary
  replaceAllS t4 "\x7b\x7bbook-creator:amazon-link\x7d\x7d" (createMarkdownLink b.title b.amazonUrl)

/-- The blog branch of the template substitution in createNoteFromTemplate
(main.ts lines 556-563). -/
def renderBlogTemplate (tpl : String) (b : BlogInfo) : String :=
  let t1 := replaceAllS tpl "\x7b\x7bblog-creator:title\x7d\x7d" b.title
  let t2 := replaceAllS t1 "\x7b\x7bblog-creator:summary\x7d\x7d" b.summary
  replaceAllS t2 "\x7b\x7bblog-creator:blog-link\x7d\x7d" (createMarkdownLink b.title b.blogUrl)

/-- The characters illegal in file names that createNoteFromTemplate removes
from the title (main.ts line 566): backslash, slash, colon, asterisk,
question mark, double quote, angle brackets and pipe. -/
def isIllegalFileChar (c : Char) : Bool :=
  c == '\\' || c == '/' || c == ':' || c == '*' || c == '?' || c == '"' ||
  c == '<' || c == '>' || c == '|'

/-- The file name built by createNoteFromTemplate (main.ts line 566): the
record title with the illegal characters removed, followed by the markdown
extension. -/
def fileNameFor (title : String) : String :=
  (removeClass isIllegalFileChar title.toList).asString ++ ".md"

/-- Modelled from the spec: the fetchWithRetry operation of the Retrying
Fetcher is specified in section 4.2 of the design but absent from the source
files, which issue each proxy request through a single fetch call.  The
network is abstracted as a behaviour mapping the attempt number to a result.
Up to maxAttempts attempts run; the first attempt has no delay and the wait
before attempt n is min(base * 2 ^ (n - 1), cap); after exhausting attempts
the last observed error is raised, and a generic exhausted error when no
attempt ever ran.  The returned list records the waits in order. -/
def fetchWithRetryGo (beh : Nat → Except String String) (base cap : Nat) :
    Nat → Nat → Option String → List Nat → Except String String × List Nat
  | 0, _, lastErr, waits =>
    (.error (lastErr.getD "fetchWithRetry: attempts exhausted"), waits.reverse)
  | remaining + 1, n, _, waits =>
    let waits := if n == 1 then waits else min (base * 2 ^ (n - 1)) cap :: waits
    match beh n with
    | .ok b => (.ok b, waits.reverse)
    | .error e => fetchWithRetryGo beh base cap remaining (n + 1) (some e) waits

/-- Modelled from the spec: entry point of the retry loop, starting at
attempt one with no recorded error and no waits. -/
def fetchWithRetry (beh : Nat → Except String String) (maxAttempts base cap : Nat) :
    Except String String × List Nat :=
  fetchWithRetryGo beh base cap maxAttempts 1 none []

/-- Whether a character list starts with a whitespace character. -/
def headWs : List Char → Bool
  | [] => false
  | c :: _ => isWsChar c

/-- Whether a character list is free of adjacent whitespace pairs, hence in
particular free of double newlines. -/
def noDoubleWs : List Char → Bool
  | a :: b :: r => !(isWsChar a && isWsChar b) && noDoubleWs (b :: r)
  | _ => true

theorem noDoubleWs_cons (a : Char) (l : List Char) :
    noDoubleWs (a :: l) = (!(isWsChar a && headWs l) && noDoubleWs l) := by
  cases l <;> simp [noDoubleWs, headWs]

theorem noDoubleWs_tail (a : Char) (l : List Char)
    (h : noDoubleWs (a :: l) = true) : noDoubleWs l = true := by
  rw [noDoubleWs_cons] at h
  simp only [Bool.and_eq_true] at h
  exact h.2

theorem length_dropWhile_le_self (p : Char → Bool) (l : List Char) :
    (l.dropWhile p).length ≤ l.length := by
  induction l with
  | nil => simp [List.dropWhile]
  | cons c cs ih =>
    by_cases h : p c = true
    · simp only [List.dropWhile, h]
      exact Nat.le_succ_of_le ih
    · simp [List.dropWhile, h]

theorem headWs_dropWhile_isWsChar (l : List Char) :
    headWs (l.dropWhile isWsChar) = false := by
  induction l with
  | nil => rfl
  | cons c cs ih =>
    by_cases h : isWsChar c = true
    · simpa [List.dropWhile, h] using ih
    · simp [List.dropWhile, h, headWs]

theorem headWs_of_takeWhile_isEmpty (l : List Char)
    (h : (l.takeWhile isWsChar).isEmpty = true) : headWs l = false := by
  cases l with
  | nil => rfl
  | cons c cs =>
    by_cases hc : isWsChar c = true
    · simp [List.takeWhile, hc] at h
    · simpa [headWs] using hc

theorem collapseGo_succ_ws_single (f : Nat) (c : Char) (cs : List Char)
    (hc : isWsChar c = true) (he : (cs.takeWhile isWsChar).isEmpty = true) :
    collapseGo (f + 1) (c :: cs) = c :: collapseGo f cs := by
  simp only [collapseGo]
  rw [if_pos hc, if_pos he]

theorem collapseGo_succ_ws_run (f : Nat) (c : Char) (cs : List Char)
    (hc : isWsChar c = true) (he : ¬(cs.takeWhile isWsChar).isEmpty = true) :
    collapseGo (f + 1) (c :: cs) = ' ' :: collapseGo f (cs.dropWhile isWsChar) := by
  simp only [collapseGo]
  rw [if_pos hc, if_neg he]

theorem collapseGo_succ_nonws (f : Nat) (c : Char) (cs : List Char)
    (hc : ¬isWsChar c = true) :
    collapseGo (f + 1) (c :: cs) = c :: collapseGo f cs := by
  simp only [collapseGo]
  rw [if_neg hc]

theorem collapseGo_headWs (f : Nat) (l : List Char) :
    headWs (collapseGo f l) = headWs l := by
  cases f with
  | zero => rfl
  | succ f =>
    cases l with
    | nil => rfl
    | cons c cs =>
      by_cases hc : isWsChar c = true
      · by_cases he : (cs.takeWhile isWsChar).isEmpty = true
        · rw [collapseGo_succ_ws_single f c cs hc he]
          rfl
        · rw [collapseGo_succ_ws_run f c cs hc he]
          show isWsChar ' ' = isWsChar c
          rw [hc]
          rfl
      · rw [collapseGo_succ_nonws f c cs hc]
        rfl

theorem collapseGo_noDouble (f : Nat) :
    ∀ l : List Char, l.length ≤ f → noDoubleWs (collapseGo f l) = true := by
  induction f with
  | zero =>
    intro l h
    have hl : l = [] := List.eq_nil_of_length_eq_zero (Nat.le_zero.mp h)
    subst hl
    rfl
  | succ f ih =>
    intro l h
    cases l with
    | nil => rfl
    | cons c cs =>
      have hcs : cs.length ≤ f := Nat.le_of_succ_le_succ (by simpa using h)
      by_cases hc : isWsChar c = true
      · by_cases he : (cs.takeWhile isWsChar).isEmpty = true
        · rw [collapseGo_succ_ws_single f c cs hc he, noDoubleWs_cons, collapseGo_headWs,
            headWs_of_takeWhile_isEmpty cs he]
          simp [ih cs hcs]
        · have hlen : (cs.dropWhile isWsChar).length ≤ f :=
            Nat.le_trans (length_dropWhile_le_self isWsChar cs) hcs
          rw [collapseGo_succ_ws_run f c cs hc he, noDoubleWs_cons, collapseGo_headWs,
            headWs_dropWhile_isWsChar]
          simp [ih _ hlen]
      · rw [collapseGo_succ_nonws f c cs hc, noDoubleWs_cons, collapseGo_headWs]
        have hc2 : isWsChar c = false := by
          cases hcb : isWsChar c
          · rfl
          · exact absurd hcb hc
        simp [hc2, ih cs hcs]

theorem noDoubleWs_dropWhile (p : Char → Bool) (l : List Char)
    (h : noDoubleWs l = true) : noDoubleWs (l.dropWhile p) = true := by
  induction l with
  | nil => exact h
  | cons c cs ih =>
    by_cases hc : p c = true
    · simpa [List.dropWhile, hc] using ih (noDoubleWs_tail c cs h)
    · simpa [List.dropWhile, hc] using h

theorem dropEndWs_head (e : Char) (l : List Char) :
    dropEndWs (e :: l) = [] ∨ headWs (dropEndWs (e :: l)) = isWsChar e := by
  simp only [dropEndWs]
  cases dropEndWs l with
  | nil =>
    by_cases he : isWsChar e = true
    · left; simp [he]
    · right; simp [he, headWs]
  | cons d r => right; simp [headWs]

theorem noDoubleWs_dropEndWs (l : List Char)
    (h : noDoubleWs l = true) : noDoubleWs (dropEndWs l) = true := by
  induction l with
  | nil => exact h
  | cons c cs ih =>
    have htail := ih (noDoubleWs_tail c cs h)
    simp only [dropEndWs]
    cases hr : dropEndWs cs with
    | nil =>
      by_cases hc : isWsChar c = true
      · rw [if_pos hc]; rfl
      · rw [if_neg hc]; rfl
    | cons d r =>
      rw [noDoubleWs_cons]
      have hcs : cs ≠ [] := by
        intro hnil
        subst hnil
        simp [dropEndWs] at hr
      obtain ⟨e, cs2, rfl⟩ := List.exists_cons_of_ne_nil hcs
      rcases dropEndWs_head e cs2 with hempty | hhead
      · rw [hempty] at hr
        exact List.noConfusion hr
      · have hh : headWs (d :: r) = isWsChar e := by
          rw [← hr]
          exact hhead
        have hpair : (!(isWsChar c && isWsChar e)) = true := by
          rw [noDoubleWs_cons] at h
          simp only [Bool.and_eq_true] at h
          simpa [headWs] using h.1
        rw [hr] at htail
        rw [hh]
        simp only [Bool.and_eq_true]
        constructor
        · exact hpair
        · exact htail

theorem cleanHtml_noDouble (html : String) :
    noDoubleWs (cleanHtml html).toList = true := by
  show noDoubleWs (dropEndWs (trimStartWs _)) = true
  exact noDoubleWs_dropEndWs _ (noDoubleWs_dropWhile _ _ (collapseGo_noDouble _ _ (Nat.le_succ _)))

theorem containsSubL_iff (needle hay : List Char) :
    containsSubL needle hay = true ↔ ∃ a b, hay = a ++ needle ++ b := by
  induction hay with
  | nil =>
    simp only [containsSubL, List.isEmpty_iff]
    constructor
    · intro h
      exact ⟨[], [], by simp [h]⟩
    · rintro ⟨a, b, hab⟩
      rcases List.append_eq_nil.mp (List.append_eq_nil.mp hab.symm).1 with ⟨-, h2⟩
      exact h2
  | cons c t ih =>
    simp only [containsSubL, Bool.or_eq_true]
    constructor
    · rintro (hpre | hsub)
      · obtain ⟨b, hb⟩ := List.isPrefixOf_iff_prefix.mp hpre
        exact ⟨[], b, by simp [← hb]⟩
      · obtain ⟨a, b, hab⟩ := ih.mp hsub
        exact ⟨c :: a, b, by simp [hab]⟩
    · rintro ⟨a, b, hab⟩
      cases a with
      | nil =>
        left
        exact List.isPrefixOf_iff_prefix.mpr ⟨b, by simpa using hab.symm⟩
      | cons c2 a2 =>
        right
        simp only [List.cons_append, List.cons.injEq] at hab
        exact ih.mpr ⟨a2, b, hab.2⟩

theorem removeClass_eq_filter (p : Char → Bool) (l : List Char) :
    removeClass p l = l.filter (fun c => !(p c)) := by
  induction l with
  | nil => rfl
  | cons c cs ih =>
    by_cases hc : p c = true
    · simp [removeClass, hc, List.filter, ih]
    · have hc2 : p c = false := by
        cases hcb : p c
        · rfl
        · exact absurd hcb hc
      simp [removeClass, hc2, List.filter, ih]

/-- C1 (corrected): when none of the extraction patterns matches, every
field of the commerce record and of the article record equals its documented
fallback value — Unknown Title, Unknown Author, Fiction, No summary
available. — and each of these fallback values is a non-empty string.  The
original universal non-emptiness of every returned field is refuted by the
counterexample below: a matched description block with empty content yields
an empty summary field. -/
theorem c1_fallback_fields (html url blogUrl apiKey : String)
    (api : String → Except String String)
    (ht : matchGroup? titlePat html = none)
    (ha : bookAuthorMatch html = none)
    (hs : bookSummaryMatch html = none)
    (hb : matchGroup? breadcrumbPat html = none)
    (hg : matchGroup? tertiaryPat html = none)
    (hbt : matchGroup? blogTitlePat html = none)
    (hbh : matchGroup? blogH1Pat html = none)
    (hk : apiKey = "") :
    (extractBookInfo html url).title = "Unknown Title" ∧
    (extractBookInfo html url).author = "Unknown Author" ∧
    (extractBookInfo html url).genre = "Fiction" ∧
    (extractBookInfo html url).summary = "No summary available." ∧
    (extractBlogInfo html blogUrl apiKey api).title = "Unknown Title" ∧
    (extractBlogInfo html blogUrl apiKey api).summary = "No summary available." ∧
    "Unknown Title" ≠ "" ∧ "Unknown Author" ≠ "" ∧ "Fiction" ≠ "" ∧
    "No summary available." ≠ "" := by
  subst hk
  refine ⟨?_, ?_, ?_, ?_, ?_, ?_, by decide, by decide, by decide, by decide⟩
  · simp [extractBookInfo, ht]
  · simp [extractBookInfo, ha]
  · simp [extractBookInfo, bookGenre, hb, hg]
  · simp [extractBookInfo, hs]
  · simp [extractBlogInfo, hbt, hbh, Option.orElse]
  · simp [extractBlogInfo, blogSummaryStep]

/-- C1 (counterexample): commerce html whose description block matches with
empty content produces a record whose summary field is the empty string, so
not every string field of the returned record is non-empty. -/
theorem c1_counterexample :
    (extractBookInfo "<div id=\"bookDescription_feature_div\"></div>" "https://www.amazon.com/dp/0").summary = "" ∧
    bookSummaryMatch "<div id=\"bookDescription_feature_div\"></div>" = some "" := by
  decide

/-- C1 (witness): the fallback theorem applied to an input where no pattern
matches. -/
theorem c1_fallback_fields_witness :
    (extractBookInfo "x" "u").title = "Unknown Title" ∧
    (extractBookInfo "x" "u").author = "Unknown Author" ∧
    (extractBookInfo "x" "u").genre = "Fiction" ∧
    (extractBookInfo "x" "u").summary = "No summary available." ∧
    (extractBlogInfo "x" "b" "" (fun _ => Except.ok "s")).title = "Unknown Title" ∧
    (extractBlogInfo "x" "b" "" (fun _ => Except.ok "s")).summary = "No summary available." ∧
    "Unknown Title" ≠ "" ∧ "Unknown Author" ≠ "" ∧ "Fiction" ≠ "" ∧
    "No summary available." ≠ "" :=
  c1_fallback_fields "x" "u" "b" "" (fun _ => Except.ok "s")
    (by decide) (by decide) (by decide) (by decide) (by decide) (by decide) (by decide) rfl

/-- C2 (confirmed): the proxy loop tries the entries in list order; when the
entries before index i all yield empty content and the entry at index i
yields non-empty content, the loop returns exactly that content and issues
exactly i + 1 requests, so no request reaches any later entry. -/
theorem c2_first_success (os : List ProxyOutcome) (pfx err : String) (i : Nat)
    (hi : i < os.length)
    (hbefore : ∀ j, (hj : j < i) → contentOf (os.get ⟨j, Nat.lt_trans hj hi⟩) = "")
    (hsucc : contentOf (os.get ⟨i, hi⟩) ≠ "") :
    proxyLoop pfx err os = (.ok (contentOf (os.get ⟨i, hi⟩)), i + 1) := by
  induction os generalizing err i with
  | nil => exact absurd hi (Nat.not_lt_zero i)
  | cons o rest ih =>
    cases i with
    | zero =>
      have h0 : contentOf o ≠ "" := by simpa using hsucc
      simp [proxyLoop, h0]
    | succ j =>
      have h0 : contentOf o = "" := by
        simpa using hbefore 0 (Nat.succ_pos j)
      have hj : j < rest.length := Nat.lt_of_succ_lt_succ hi
      have ihr := ih ((errUpdate o).getD err) j hj
        (fun k hk => by simpa using hbefore (k + 1) (Nat.succ_lt_succ hk))
        (by simpa using hsucc)
      simp [proxyLoop, h0, ihr]

/-- C2 (witness): a first entry that throws, a second entry whose json body
lacks the contents field, and a third entry with non-empty text: the loop
returns the third content after exactly three requests. -/
theorem c2_first_success_witness :
    proxyLoop "Failed to fetch Amazon data: " ""
      [ProxyOutcome.netError "boom", ProxyOutcome.jsonVal none "\x7b\x7d",
       ProxyOutcome.text "<html>ok</html>"] = (.ok "<html>ok</html>", 3) := by
  have h := c2_first_success
    [ProxyOutcome.netError "boom", ProxyOutcome.jsonVal none "\x7b\x7d",
     ProxyOutcome.text "<html>ok</html>"] "Failed to fetch Amazon data: " "" 2
    (by decide) (by intro j hj; interval_cases j <;> rfl) (by decide)
  exact h

/-- C3 (confirmed, modelled from the spec): a behaviour that fails on the
first two attempts and succeeds on the third makes fetchWithRetry with three
attempts return the successful body after exactly the two waits
min(base * 2, cap) and min(base * 2 ^ 2, cap), and the second wait is at
least the first. -/
theorem c3_retry_backoff (beh : Nat → Except String String) (base cap : Nat)
    (e1 e2 body : String)
    (h1 : beh 1 = .error e1) (h2 : beh 2 = .error e2) (h3 : beh 3 = .ok body) :
    fetchWithRetry beh 3 base cap =
      (.ok body, [min (base * 2) cap, min (base * 2 ^ 2) cap]) ∧
    min (base * 2) cap ≤ min (base * 2 ^ 2) cap := by
  constructor
  · simp [fetchWithRetry, fetchWithRetryGo, h1, h2, h3, pow_one]
  · exact min_le_min (by nlinarith [Nat.zero_le base]) (le_refl cap)

/-- C3 (witness): the retry theorem applied to a concrete behaviour failing
twice with base 100 and cap 300, giving the waits 200 and 300. -/
theorem c3_retry_backoff_witness :
    fetchWithRetry (fun n => if 3 ≤ n then .ok "body" else .error "fail") 3 100 300 =
      (.ok "body", [200, 300]) ∧ (200 : Nat) ≤ 300 := by
  have h := c3_retry_backoff (fun n => if 3 ≤ n then .ok "body" else .error "fail")
    100 300 "fail" "fail" "body" rfl rfl rfl
  exact ⟨h.1, by norm_num⟩

/-- C4 (corrected): when the breadcrumb block is present and its anchors are
extracted, the genre is the trimmed text of the anchor at index
max(0, n - 2) — the second-to-last anchor when there are at least two, the
sole anchor when there is one — provided the trimmed text is neither the
Fiction default nor Kindle Store, in which case the tertiary re-search would
run.  The claim that the last anchor is selected is refuted by the
counterexample below. -/
theorem c4_second_to_last (html url bc lnk g : String) (links : List String)
    (hb : matchGroup? breadcrumbPat html = some bc)
    (hl : globalMatches anchorPat bc = links)
    (hi : links.get? (links.length - 2) = some lnk)
    (hg : matchGroup? anchorPat lnk = some g)
    (h1 : trimJS g ≠ "Fiction") (h2 : trimJS g ≠ "Kindle Store") :
    (extractBookInfo html url).genre = trimJS g := by
  have hlen : 0 < links.length := by
    cases links with
    | nil => simp at hi
    | cons a l => simp
  show bookGenre html = trimJS g
  rw [bookGenre, hb]
  simp only [hl, hlen, if_pos, hi, hg]
  have hcond : (trimJS g == "Fiction" || trimJS g == "Kindle Store") = false := by
    simp [h1, h2]
  rw [hcond]
  simp

/-- C4 (counterexample): a breadcrumb block with the two anchors Books and
SciFi: the last anchor text is SciFi, yet the returned genre is Books, the
second-to-last anchor text. -/
theorem c4_counterexample :
    (extractBookInfo "<div id=\"wayfinding-breadcrumbs_feature_div\"><a>Books</a><a>SciFi</a></div>" "https://www.amazon.com/dp/1").genre = "Books" ∧
    globalMatches anchorPat "<a>Books</a><a>SciFi</a>" = ["<a>Books</a>", "<a>SciFi</a>"] ∧
    matchGroup? anchorPat "<a>SciFi</a>" = some "SciFi" ∧
    "Books" ≠ "SciFi" := by
  decide

/-- C4 (witness): the second-to-last theorem applied to the concrete
breadcrumb block with anchors Books and SciFi. -/
theorem c4_second_to_last_witness :
    (extractBookInfo "<div id=\"wayfinding-breadcrumbs_feature_div\"><a>Books</a><a>SciFi</a></div>" "u").genre = "Books" :=
  c4_second_to_last
    "<div id=\"wayfinding-breadcrumbs_feature_div\"><a>Books</a><a>SciFi</a></div>" "u"
    "<a>Books</a><a>SciFi</a>" "<a>Books</a>" "Books" ["<a>Books</a>", "<a>SciFi</a>"]
    (by decide) (by decide) (by decide) (by decide) (by decide) (by decide)

/-- C5 (corrected): cleanHtml performs the documented replacement steps —
the concrete runs show paragraph-close tags becoming paragraph separation
that is then collapsed to a single space, and an isolated break tag
surviving as a single newline — and its output never contains two adjacent
whitespace characters, hence never a double-newline paragraph break: the
whitespace collapse removes the double newlines the paragraph step inserts. -/
theorem c5_clean_collapses_paragraphs :
    cleanHtml "<p>One</p> <p>Two</p>" = "One Two" ∧
    cleanHtml "a<br>b" = "a\nb" ∧
    (∀ html : String, noDoubleWs (cleanHtml html).toList = true) :=
  ⟨by decide, by decide, cleanHtml_noDouble⟩

/-- C5 (counterexample): an input with two paragraphs, whose cleaned output
contains no double newline at all — the paragraph breaks are not preserved
in the output. -/
theorem c5_counterexample :
    cleanHtml "<p>One</p><p>Two</p>" = "One Two" ∧
    containsSubL "\n\n".toList (cleanHtml "<p>One</p><p>Two</p>").toList = false := by
  decide

/-- C6 (corrected): the article fetch accepts an input exactly when the
input contains http anywhere as a substring, and otherwise raises the
invalid-url error; acceptance does not require the scheme to be a prefix,
and inputs without the substring are rejected rather than processed.  The
claim that non-HTTP(S)-prefixed inputs are routed to the article path
without error is refuted by the counterexample below. -/
theorem c6_substring_validation (u : String) :
    (validateBlogUrl u = .ok () ↔ ∃ a b, u.toList = a ++ "http".toList ++ b) ∧
    (validateBlogUrl u = .ok () ∨ validateBlogUrl u = .error "Invalid Blog URL") := by
  constructor
  · rw [validateBlogUrl]
    by_cases h : containsSubL "http".toList u.toList = true
    · rw [if_pos h]
      simp only [true_iff]
      exact (containsSubL_iff "http".toList u.toList).mp h
    · rw [if_neg h]
      constructor
      · intro hok
        exact absurd hok (by simp)
      · intro hex
        exact absurd ((containsSubL_iff "http".toList u.toList).mpr hex) h
  · rw [validateBlogUrl]
    by_cases h : containsSubL "http".toList u.toList = true
    · left
      rw [if_pos h]
    · right
      rw [if_neg h]

/-- C6 (counterexample): an input that does not begin with an HTTP(S) scheme
makes the article fetch raise the invalid-url error instead of proceeding. -/
theorem c6_counterexample :
    "http".toList.isPrefixOf "example.com/post".toList = false ∧
    validateBlogUrl "example.com/post" = .error "Invalid Blog URL" :=
  ⟨by decide, rfl⟩

/-- C6 (witness): the validation theorem applied to a concrete input that
contains http in the middle and so passes, and the or-branch at an input
that fails. -/
theorem c6_substring_validation_witness :
    validateBlogUrl "see http example" = .ok () ∧
    (validateBlogUrl "gopher://a" = .ok () ∨
      validateBlogUrl "gopher://a" = .error "Invalid Blog URL") :=
  ⟨(c6_substring_validation "see http example").1.mpr
      ⟨"see ".toList, " example".toList, by decide⟩,
    (c6_substring_validation "gopher://a").2⟩

/-- C7 (corrected): with an empty api key the summary step of the article
pipeline issues no request and yields the fallback string No summary
available. as a successful value, so note creation proceeds; the summarizer
itself, if it were invoked with an empty key, raises a key-not-set error
before any request rather than returning an informational message. -/
theorem c7_empty_key_no_request :
    (∀ (cleaned : String) (api : String → Except String String),
      blogSummaryStep "" cleaned api = ("No summary available.", 0)) ∧
    (∀ (content : String) (api : String → Except String String),
      generateSummaryWithAnthropic "" content api =
        (.error "Anthropic API key is not set", 0)) := by
  constructor
  · intro cleaned api
    simp [blogSummaryStep]
  · intro content api
    simp [generateSummaryWithAnthropic]

/-- C7 (counterexample): with an empty key the value produced is the plain
no-summary fallback, which does not mention a key at all, rather than a
fixed message instructing the user to configure a key. -/
theorem c7_counterexample :
    blogSummaryStep "" "blog text" (fun _ => Except.ok "api summary") =
      ("No summary available.", 0) ∧
    containsSubL "key".toList "No summary available.".toList = false := by
  decide

/-- C8 (confirmed): rendering the title-by-author template against the Dune
record produces exactly Dune by Herbert, and a template with three
occurrences of the author token has every occurrence replaced, showing that
substitution is global rather than first-only. -/
theorem c8_render_global :
    renderBookTemplate "\x7b\x7bbook-creator:title\x7d\x7d by \x7b\x7bbook-creator:author\x7d\x7d"
      ⟨"Dune", "Herbert", "Fiction", "No summary available.", "https://www.amazon.com/dp/1"⟩ =
      "Dune by Herbert" ∧
    renderBookTemplate "\x7b\x7bbook-creator:author\x7d\x7d, \x7b\x7bbook-creator:author\x7d\x7d and \x7b\x7bbook-creator:author\x7d\x7d"
      ⟨"Dune", "Herbert", "Fiction", "No summary available.", "https://www.amazon.com/dp/1"⟩ =
      "Herbert, Herbert and Herbert" := by
  decide

/-- C9 (confirmed): the file name is the record title with exactly the
backslash, slash, colon, asterisk, question mark, double quote, angle
bracket and pipe characters removed, followed by the markdown extension:
the concrete title yields Foo BarBaz.md, and in general the title characters
are filtered by the illegal-character class with all others preserved in
order. -/
theorem c9_filename_sanitization :
    fileNameFor "Foo: Bar/Baz?" = "Foo BarBaz.md" ∧
    (∀ title : String,
      fileNameFor title =
        (title.toList.filter (fun c => !(isIllegalFileChar c))).asString ++ ".md") :=
  ⟨by decide, fun title => by rw [fileNameFor, removeClass_eq_filter]⟩

/-- C10 (confirmed): a proxy entry whose json response lacks the contents
field contributes no content: the loop proceeds to the remaining entries
with one more request counted, a chain consisting only of such an entry
fails with the fetch-failure message rather than returning the raw json
body, and the content assigned by such an outcome is empty whatever the raw
body text is. -/
theorem c10_json_without_contents :
    (∀ (raw pfx err : String) (rest : List ProxyOutcome),
      proxyLoop pfx err (ProxyOutcome.jsonVal none raw :: rest) =
        ((proxyLoop pfx err rest).1, (proxyLoop pfx err rest).2 + 1)) ∧
    (∀ raw pfx err : String,
      proxyLoop pfx err [ProxyOutcome.jsonVal none raw] = (.error (pfx ++ err), 1)) ∧
    (∀ raw : String, contentOf (ProxyOutcome.jsonVal none raw) = "") :=
  ⟨fun _ _ _ _ => rfl, fun _ _ _ => rfl, fun _ => rfl⟩
